import Mathlib

/-!
Verification of the runtime coordination core of the workflow-automation
repository: the webhook synchronization bridge (in-memory stores shared by the
webhook handlers), the ReAct agent reasoning loop, and the server-sent-events
broadcast hub.  All definitions are shallow embeddings of the TypeScript
source; in-memory JavaScript `Map`s are modelled as association lists with
first-match lookup, and asynchronous resolution is modelled by returning the
resolution effect explicitly.
-/

/-! ## Association-list model of a JavaScript Map keyed by strings -/

/-- Lookup in the map model: first entry with the given key. -/
def mGet {α : Type} (m : List (String × α)) (k : String) : Option α :=
  match m with
  | [] => none
  | (k', v) :: rest => if k' = k then some v else mGet rest k

/-- Deletion in the map model: removes every entry with the given key
(a JavaScript Map holds at most one, so this is `Map.delete`). -/
def mDel {α : Type} (m : List (String × α)) (k : String) : List (String × α) :=
  match m with
  | [] => []
  | (k', v) :: rest => if k' = k then mDel rest k else (k', v) :: mDel rest k

/-- Insertion/overwrite in the map model (`Map.set`). -/
def mSet {α : Type} (m : List (String × α)) (k : String) (v : α) : List (String × α) :=
  (k, v) :: mDel m k

/-! ## Webhook synchronization bridge (webhook-store module)

The module keeps three process-wide maps: `webhookTestStore` (inbound events),
`webhookResponseStore` (delivered responses) and `responseResolvers` (pending
waiters).  A pending promise resolver is modelled by an opaque identifier; the
act of resolving it is modelled by returning the identifier together with the
value it was resolved with. -/

/-- An inbound webhook event record (`WebhookEvent` in the source); the
payload object is kept opaque as its JSON serialization. -/
structure WebhookEvent where
  data : String
  timestamp : Nat
  consumed : Bool
  method : String
  deriving Repr, DecidableEq

/-- A delivered HTTP response artifact (`WebhookResponse` in the source). -/
structure WebhookResponse where
  statusCode : Nat
  headers : List (String × String)
  body : String
  deriving Repr, DecidableEq

/-- The three global stores of the webhook-store module. -/
structure BridgeState where
  webhookTestStore : List (String × WebhookEvent)
  webhookResponseStore : List (String × WebhookResponse)
  responseResolvers : List (String × Nat)
  deriving Repr, DecidableEq

/-- `setWebhookResponse(path, response)`: stores the response, then, if a
resolver is waiting for the path, resolves it with the response and removes
it.  The second component reports the resolution effect: `some (rid, r)` means
the pending promise `rid` was resolved with `r`. -/
def setWebhookResponse (path : String) (response : WebhookResponse) (s : BridgeState) :
    BridgeState × Option (Nat × WebhookResponse) :=
  let s1 : BridgeState := { s with webhookResponseStore := mSet s.webhookResponseStore path response }
  match mGet s1.responseResolvers path with
  | some rid =>
      ({ s1 with responseResolvers := mDel s1.responseResolvers path }, some (rid, response))
  | none => (s1, none)

/-- Synchronous outcome of `waitForWebhookResponse`: either an already-stored
response is returned immediately, or a resolver is registered and the caller
suspends. -/
inductive WaitOutcome where
  | immediate (r : WebhookResponse)
  | registered (rid : Nat)
  deriving Repr, DecidableEq

/-- `waitForWebhookResponse(path)`: if a response already exists it is deleted
from the store and returned immediately; otherwise a resolver (identified by
`rid`) is registered under the path. -/
def waitForWebhookResponse (path : String) (rid : Nat) (s : BridgeState) :
    BridgeState × WaitOutcome :=
  match mGet s.webhookResponseStore path with
  | some existing =>
      ({ s with webhookResponseStore := mDel s.webhookResponseStore path },
       WaitOutcome.immediate existing)
  | none =>
      ({ s with responseResolvers := mSet s.responseResolvers path rid },
       WaitOutcome.registered rid)

/-- The wait-timeout firing for `path`: the resolver is deleted and the
suspended caller receives `null`. -/
def waitTimeout (path : String) (s : BridgeState) : BridgeState :=
  { s with responseResolvers := mDel s.responseResolvers path }

/-- Retention window of the cleanup sweep: 5 minutes in milliseconds. -/
def maxAge : Nat := 5 * 60 * 1000

/-- Whether an inbound event is older than the retention window at time `now`
(`now - value.timestamp > maxAge` in the source, with saturating subtraction
matching the JavaScript comparison for timestamps in the future). -/
def isExpired (now : Nat) (e : WebhookEvent) : Bool :=
  decide (maxAge < now - e.timestamp)

/-- One pass of the 60-second background cleanup sweep: iterates the entries
of `webhookTestStore` and, for every entry older than the retention window,
deletes that key from both `webhookTestStore` and `webhookResponseStore`.
Keys that are present only in `webhookResponseStore` are never visited. -/
def cleanupSweep (now : Nat) (s : BridgeState) : BridgeState :=
  let expiredKeys : List String :=
    (s.webhookTestStore.filter (fun p => isExpired now p.2)).map (·.1)
  { s with
    webhookTestStore := expiredKeys.foldl mDel s.webhookTestStore,
    webhookResponseStore := expiredKeys.foldl mDel s.webhookResponseStore }

/-! ## Correlation-key derivation in the webhook entry points -/

/-- Slash-join of the catch-all route segments (`path.join("/")`). -/
def joinPath (segments : List String) : String :=
  String.intercalate "/" segments

/-- Trailing-slash stripping (`.replace(/\/+$/, "")`). -/
def stripTrailingSlashes (s : String) : String :=
  String.mk ((s.data.reverse.dropWhile (fun c => c = '/')).reverse)

/-- Correlation key derived by the test webhook handler
(`src/app/api/webhook-test/[...path]/route.ts`): slash-join then strip
trailing slashes. -/
def testWebhookPathKey (path : List String) : String :=
  stripTrailingSlashes (joinPath path)

/-- Correlation key derived by the production webhook handler: slash-join
only, with no trailing-slash normalization. -/
def productionWebhookPathKey (path : List String) : String :=
  joinPath path

/-- Correlation key derived by the webhook-listen poller (GET and POST):
slash-join then strip trailing slashes. -/
def webhookListenPathKey (path : List String) : String :=
  stripTrailingSlashes (joinPath path)

/-! ## Inbound-event polling (webhook-listen endpoint) -/

/-- Both webhook handlers record the inbound event under the derived key with
`consumed: false`, overwriting any previous entry. -/
def storeInboundEvent (k : String) (d : String) (now : Nat) (method : String)
    (s : BridgeState) : BridgeState :=
  { s with webhookTestStore := mSet s.webhookTestStore k ⟨d, now, false, method⟩ }

/-- Result of one poll check, as serialized into the HTTP reply. -/
structure PollResult where
  received : Bool
  data : Option String
  deriving Repr, DecidableEq

/-- One check of the webhook-listen GET polling loop: look up the key; if an
unconsumed event is present, flip `consumed` to true (writing the record back)
and return it; otherwise report nothing received.  Each check runs atomically
in the event-driven runtime (no suspension point between the lookup and the
write-back). -/
def pollOnce (k : String) (s : BridgeState) : BridgeState × PollResult :=
  match mGet s.webhookTestStore k with
  | some e =>
      if e.consumed then (s, ⟨false, none⟩)
      else
        ({ s with webhookTestStore := mSet s.webhookTestStore k { e with consumed := true } },
         ⟨true, some e.data⟩)
  | none => (s, ⟨false, none⟩)

/-- Webhook-listen POST with `action: "clear"`: drops the stored event. -/
def clearListener (k : String) (s : BridgeState) : BridgeState :=
  { s with webhookTestStore := mDel s.webhookTestStore k }

/-- Webhook-listen POST with `action: "reset"`: re-arms the stored event as
unconsumed when one exists. -/
def resetListener (k : String) (s : BridgeState) : BridgeState :=
  match mGet s.webhookTestStore k with
  | some e => { s with webhookTestStore := mSet s.webhookTestStore k { e with consumed := false } }
  | none => s

/-! ## Event broadcast hub (workflow events route)

Stream controllers are modelled by opaque identifiers; whether `enqueue` on a
given controller succeeds or throws (closed/broken stream) is given by the
oracle `enqueueOk`.  The function returns the new hub state together with the
list of deliveries that were successfully enqueued. -/

/-- The per-workflow registry of open stream controllers. -/
structure HubState where
  connections : List (String × List Nat)
  deriving Repr, DecidableEq

/-- `broadcastToWorkflow(workflowId, event)` (the registered broadcast
callback in the same route file has identical logic): no-op when the set for
the workflow is absent or empty; otherwise enqueue the event to each
controller, dropping from the set any controller whose enqueue throws. -/
def broadcastToWorkflow (enqueueOk : Nat → Bool) (workflowId : String) (event : String)
    (s : HubState) : HubState × List (Nat × String) :=
  match mGet s.connections workflowId with
  | none => (s, [])
  | some conns =>
      if conns.isEmpty then (s, [])
      else
        ({ connections := mSet s.connections workflowId (conns.filter enqueueOk) },
         (conns.filter enqueueOk).map (fun c => (c, event)))

/-! ## ReAct agent reasoning loop (agent provider adapter)

The decision model, the tool executors and `JSON.parse` on tool arguments are
modelled as oracles returning `Except`: an `error` value models a thrown
exception carrying its message.  JSON payloads (tool arguments, tool results,
serialized trigger data) are kept opaque as strings.  Broadcast calls and
console logging are side effects with no influence on the state and are
omitted. -/

/-- The `step` field of the agent state. -/
inductive AgentStep where
  | reason
  | act
  | observe
  | complete
  deriving Repr, DecidableEq

/-- A normalized tool-call entry as stored on an assistant message
(`{id, type: "function", function: {name, arguments}}`; the constant
`type` tag is omitted). -/
structure ToolCallRec where
  id : String
  name : String
  arguments : String
  deriving Repr, DecidableEq

/-- A conversation message (`AgentMessage` in the source). -/
structure AgentMessage where
  role : String
  content : String
  name : Option String := none
  tool_call_id : Option String := none
  tool_calls : List ToolCallRec := []
  deriving Repr, DecidableEq

/-- A provider-native tool call in the decision-model response: either the
`function` shape or the `custom` shape, discriminated by `type`. -/
inductive WireToolCall where
  | function (id name arguments : String)
  | custom (id name input : String)
  deriving Repr, DecidableEq

/-- The call identifier, identical in both wire shapes. -/
def WireToolCall.callId : WireToolCall → String
  | .function i _ _ => i
  | .custom i _ _ => i

/-- The tool name (`tc.function.name` or `tc.custom.name`). -/
def WireToolCall.callName : WireToolCall → String
  | .function _ n _ => n
  | .custom _ n _ => n

/-- The raw argument payload (`tc.function.arguments` or `tc.custom.input`). -/
def WireToolCall.rawArgs : WireToolCall → String
  | .function _ _ a => a
  | .custom _ _ inp => inp

/-- Normalization applied when recording the assistant message: both wire
shapes map to `{id, type: "function", function: {name, arguments}}`. -/
def normalizeToolCall : WireToolCall → ToolCallRec
  | .function i n a => ⟨i, n, a⟩
  | .custom i n inp => ⟨i, n, inp⟩

/-- The message of the first choice of a decision-model response. -/
structure ModelChoice where
  content : Option String
  tool_calls : List WireToolCall
  deriving Repr, DecidableEq

/-- The runtime value returned by a successful tool execution.  The loop
consults (a) its JSON serialization (for the tool message and the audit log)
and (b) its JavaScript dynamic shape: `isObject` records whether the value is
a non-null object (so the `in` operator is applicable to it) and `truthy` its
JavaScript truthiness (non-null objects are always truthy; primitives by
value). -/
structure ToolOutput where
  isObject : Bool
  truthy : Bool
  json : String
  deriving Repr, DecidableEq

/-- One entry of the audit log `state.toolCalls`; the wall-clock timestamp is
abstracted to 0. -/
structure ToolCallLog where
  tool : String
  input : String
  output : ToolOutput
  timestamp : Nat
  deriving Repr, DecidableEq

/-- The LangGraph-style loop state (`AgentState` in the source). -/
structure AgentState where
  input : String
  messages : List AgentMessage
  toolCalls : List ToolCallLog
  step : AgentStep
  iterations : Nat
  output : Option String
  error : Option String
  deriving Repr, DecidableEq

/-- JavaScript truthiness of a possibly-absent string: `undefined` and `""`
are falsy. -/
def strTruthy : Option String → Bool
  | some s => !s.isEmpty
  | none => false

/-- `String.prototype.trim()`: strips whitespace from both ends (implemented
on the character list so that it is kernel-computable). -/
def jsTrim (s : String) : String :=
  String.mk (((s.data.dropWhile Char.isWhitespace).reverse.dropWhile
    Char.isWhitespace).reverse)

/-- `String.prototype.startsWith(pre)` (implemented on the character list so
that it is kernel-computable). -/
def strStartsWith (s pre : String) : Bool :=
  pre.data.isPrefixOf s.data

/-- JavaScript `o || d` for a possibly-absent string `o` and a string `d`. -/
def jsOr (o : Option String) (d : String) : String :=
  match o with
  | some s => if s.isEmpty then d else s
  | none => d

/-- The tool-role message appended after executing (or failing to execute)
one tool call, tagged with the call identifier it answers. -/
def toolResultMessage (toolCallId : String) (content : String) : AgentMessage :=
  { role := "tool", content := content, tool_call_id := some toolCallId }

/-- The assistant message recording the tool calls of a model response
(`content: message.content || ""`, plus the normalized tool calls). -/
def assistantToolCallMessage (choice : ModelChoice) : AgentMessage :=
  { role := "assistant",
    content := choice.content.getD "",
    tool_calls := choice.tool_calls.map normalizeToolCall }

/-- `JSON.stringify({error: errorMessage})` for a failed tool execution. -/
def stringifyError (em : String) : String :=
  "\x7b\"error\":\"" ++ em ++ "\"\x7d"

/-- Sequential dispatch of the tool calls of one model response.  A tool
executor that throws is caught per call: the error is serialized into the
tool message and the loop continues with the next call.  `JSON.parse` of the
arguments runs outside that inner catch, so a parse failure aborts the
remaining calls and is reported to the iteration-level catch (second
component `some e`), with all mutations made so far kept. -/
def runToolCalls (exec : String → String → Except String ToolOutput)
    (argParse : String → Except String String) :
    AgentState → List WireToolCall → AgentState × Option String
  | st, [] => (st, none)
  | st, tc :: rest =>
      match argParse tc.rawArgs with
      | .error e => (st, some e)
      | .ok args =>
          match exec tc.callName args with
          | .ok result =>
              runToolCalls exec argParse
                { st with
                  toolCalls := st.toolCalls ++ [⟨tc.callName, args, result, 0⟩],
                  messages := st.messages ++ [toolResultMessage tc.callId result.json] }
                rest
          | .error em =>
              runToolCalls exec argParse
                { st with
                  messages := st.messages ++ [toolResultMessage tc.callId (stringifyError em)] }
                rest

/-- One pass of the ReAct while-loop body.  The iteration counter is bumped
first; the decision-model call and everything after it run inside the
iteration-level try/catch, which on a throw records the message into
`state.error` and completes the loop.  On the Anthropic path only textual
content is consulted; on the OpenAI path a response with tool calls appends
the assistant message and dispatches the calls, a response with truthy
content completes with that content as the final answer, and a response with
neither leaves the state unchanged. -/
def runIteration (isAnthropic : Bool)
    (llm : List AgentMessage → Except String ModelChoice)
    (exec : String → String → Except String ToolOutput)
    (argParse : String → Except String String) (st : AgentState) : AgentState :=
  let st1 : AgentState := { st with iterations := st.iterations + 1 }
  match llm st1.messages with
  | .error e => { st1 with error := some e, step := AgentStep.complete }
  | .ok choice =>
      if isAnthropic then
        if strTruthy choice.content then
          { st1 with output := choice.content, step := AgentStep.complete }
        else st1
      else
        if 0 < choice.tool_calls.length then
          let st2 : AgentState :=
            { st1 with messages := st1.messages ++ [assistantToolCallMessage choice] }
          let res := runToolCalls exec argParse st2 choice.tool_calls
          match res.2 with
          | none => res.1
          | some e => { res.1 with error := some e, step := AgentStep.complete }
        else if strTruthy choice.content then
          { st1 with output := choice.content, step := AgentStep.complete }
        else st1

/-- Fuel-indexed unfolding of
`while (state.iterations < maxIterations && state.step !== "complete")`.
The guard is checked before every pass exactly as in the source. -/
def agentLoopFuel (isAnthropic : Bool)
    (llm : List AgentMessage → Except String ModelChoice)
    (exec : String → String → Except String ToolOutput)
    (argParse : String → Except String String) (maxIterations : Nat) :
    Nat → AgentState → AgentState
  | 0, st => st
  | fuel + 1, st =>
      if st.iterations < maxIterations ∧ st.step ≠ AgentStep.complete then
        agentLoopFuel isAnthropic llm exec argParse maxIterations fuel
          (runIteration isAnthropic llm exec argParse st)
      else st

/-- The ReAct while-loop.  Fuel `maxIterations` is exact: the loop is entered
with `iterations = 0`, every pass increments `iterations` by one, and the
guard fails as soon as `iterations` reaches `maxIterations`, so no run ever
needs more than `maxIterations` passes. -/
def agentLoop (isAnthropic : Bool)
    (llm : List AgentMessage → Except String ModelChoice)
    (exec : String → String → Except String ToolOutput)
    (argParse : String → Except String String)
    (maxIterations : Nat) (st : AgentState) : AgentState :=
  agentLoopFuel isAnthropic llm exec argParse maxIterations maxIterations st

/-- The synthesized fallback answer produced when the loop ends without an
output and without an error. -/
def fallbackOutput (maxIterations : Nat) (tcs : List ToolCallLog) : String :=
  let recent := String.intercalate ", " ((tcs.drop (tcs.length - 3)).map (·.tool))
  "Agent reached maximum iterations (" ++ toString maxIterations ++
    "). Last tool calls: " ++ (if recent.isEmpty then "none" else recent)

/-- The uniform output contract returned to the workflow engine. -/
structure AgentResult where
  answer : String
  output : String
  toolCalls : List ToolCallLog
  iterations : Nat
  status : String
  messages : List AgentMessage
  deriving Repr, DecidableEq

/-- Post-loop finalization: synthesize the fallback output when neither an
output nor an error is set, then build the return record, with
`status = error ? "error" : iterations >= maxIterations ? "max_iterations"
: "completed"` and `answer = output || error || "No response generated"`. -/
def finishAgent (maxIterations : Nat) (st0 : AgentState) : AgentResult :=
  let st : AgentState :=
    if !strTruthy st0.output && !strTruthy st0.error then
      { st0 with output := some (fallbackOutput maxIterations st0.toolCalls) }
    else st0
  let answer := jsOr st.output (jsOr st.error "No response generated")
  { answer := answer,
    output := answer,
    toolCalls := st.toolCalls,
    iterations := st.iterations,
    status :=
      if strTruthy st.error then "error"
      else if maxIterations ≤ st.iterations then "max_iterations"
      else "completed",
    messages := st.messages }

/-- Serialized trigger payload of the node input (`input.trigger`).
`bodyIsObject` records whether `trigger.body` is a truthy object; the opaque
strings carry the relevant `JSON.stringify` serializations. -/
structure TriggerData where
  bodyIsObject : Bool
  bodyJson : String
  json : String
  deriving Repr, DecidableEq

/-- One value of `Object.values(input.previous)`: `hasBody` records whether
the value is a truthy object with a `body` property. -/
structure PrevValue where
  hasBody : Bool
  bodyJson : String
  deriving Repr, DecidableEq

/-- The `input.previous` record with its serialization. -/
structure PrevData where
  values : List PrevValue
  json : String
  deriving Repr, DecidableEq

/-- The node-input record consumed by `executeReActAgent`.  String-typed
fields are `none` when absent; `inputField` stands for the `input` property.
The two environment variables are part of the input record because the
adapter reads them through `process.env`. -/
structure AgentInput where
  query : Option String := none
  prompt : Option String := none
  message : Option String := none
  inputField : Option String := none
  trigger : Option TriggerData := none
  previous : Option PrevData := none
  systemPrompt : Option String := none
  maxIterations : Option Nat := none
  decisionMakerProvider : Option String := none
  decisionMakerModel : Option String := none
  decisionMakerApiKey : Option String := none
  chatModelApiKey : Option String := none
  envOpenAiKey : Option String := none
  envAnthropicKey : Option String := none
  deriving Repr, DecidableEq

/-- User-input resolution precedence: trimmed-nonempty `query`, then truthy
`prompt` / `message` / `input`, then the webhook trigger body, then the first
upstream value carrying a `body`, else empty (the generic greeting is
substituted later, after the credential check). -/
def resolveUserInput (inp : AgentInput) : String :=
  if (match inp.query with | some q => !(jsTrim q).isEmpty | none => false) then
    inp.query.getD ""
  else if strTruthy inp.prompt then inp.prompt.getD ""
  else if strTruthy inp.message then inp.message.getD ""
  else if strTruthy inp.inputField then inp.inputField.getD ""
  else
    match inp.trigger with
    | some t =>
        if t.bodyIsObject then "Process this webhook data: " ++ t.bodyJson
        else "Process this trigger data: " ++ t.json
    | none =>
        match inp.previous with
        | some p =>
            match p.values.find? (·.hasBody) with
            | some v => "Process this data: " ++ v.bodyJson
            | none => "Process this data: " ++ p.json
        | none => ""

/-- `decisionMakerApiKey && decisionMakerApiKey.trim().length > 0 ?
decisionMakerApiKey : null`. -/
def resolveConfigApiKey (o : Option String) : Option String :=
  match o with
  | some s => if 0 < (jsTrim s).length then some s else none
  | none => none

/-- JavaScript `a || b` on possibly-absent strings. -/
def jsOrOpt (a b : Option String) : Option String :=
  if strTruthy a then a else b

/-- `apiKey = configApiKey || legacyApiKey || envApiKey`, where the
environment key is `ANTHROPIC_API_KEY` exactly when the configured provider
is `anthropic` and `OPENAI_API_KEY` otherwise. -/
def resolveApiKey (inp : AgentInput) : Option String :=
  let envApiKey :=
    if inp.decisionMakerProvider.getD "openai" = "anthropic" then inp.envAnthropicKey
    else inp.envOpenAiKey
  jsOrOpt (resolveConfigApiKey inp.decisionMakerApiKey) (jsOrOpt inp.chatModelApiKey envApiKey)

/-- `isAnthropic = decisionMakerProvider === "anthropic" ||
decisionMakerModel.startsWith("claude")`. -/
def isAnthropicDecisionMaker (inp : AgentInput) : Bool :=
  inp.decisionMakerProvider.getD "openai" = "anthropic"
    || strStartsWith (inp.decisionMakerModel.getD "gpt-4o-mini") "claude"

/-- Default system instruction seeded into the conversation. -/
def defaultSystemPrompt : String :=
  "You are a helpful AI assistant with access to tools. Use tools when needed to answer questions accurately. Always provide a final answer when you have enough information."

/-- Message of the VALIDATION_ERROR thrown when no usable credential is
found. -/
def apiKeyRequiredMessage : String :=
  "API Key is required for the Decision Maker. Please provide an API key in the AI Agent configuration or set OPENAI_API_KEY in your environment."

/-- The conversation seed: the system instruction and the resolved user
input. -/
def initialMessages (inp : AgentInput) (userInput : String) : List AgentMessage :=
  [ { role := "system", content := inp.systemPrompt.getD defaultSystemPrompt },
    { role := "user", content := userInput } ]

/-- The user input actually seeded into the conversation: the resolved input
unless it is unusable (`!userInput || userInput === "undefined" ||
userInput === "{}"`), in which case the generic greeting is substituted. -/
def resolvedUserInput (inp : AgentInput) : String :=
  let u := resolveUserInput inp
  if u.isEmpty || u = "undefined" || u = "\x7b\x7d" then
    "Hello! What can you help me with?"
  else u

/-- Whether the post-loop summary entry
`success: !("error" in (tc.output || {}))` throws for one audit-log entry:
the `|| {}` guard replaces a falsy output, and the `in` operator throws a
TypeError exactly when its right operand is a (truthy) primitive. -/
def summaryEntryThrows (tc : ToolCallLog) : Bool :=
  !tc.output.isObject && tc.output.truthy

/-- Message of the TypeError thrown by the post-loop summary computation (the
actual JavaScript message also prints the offending value, which is
abstracted). -/
def summaryTypeErrorMessage : String :=
  "TypeError: Cannot use the in operator to search for error in a primitive tool output"

/-- Outcome of one call of the agent operation: either a thrown exception
escaping to the caller, or the returned output contract. -/
inductive AgentOutcome where
  | thrown (e : String)
  | returned (r : AgentResult)
  deriving Repr, DecidableEq

/-- `executeReActAgent` (operation `agent.tools`): resolve the user input and
the decision-maker credential; throw a VALIDATION_ERROR when no usable
credential is found (this happens before the loop and outside every catch);
otherwise substitute the greeting fallback for an unusable user input, seed
the state, run the bounded loop and finalize.  After the loop, and outside
every catch, the source computes a toolCallsSummary whose
`"error" in (tc.output || {})` throws an uncaught TypeError when any
successful tool output recorded in the audit log is a truthy primitive; only
when no entry throws is the finalized contract returned.  (The fallback
output synthesized just before the summary does not affect the audit log, so
checking the throw before `finishAgent` is equivalent to the source
order.) -/
def executeReActAgent (inp : AgentInput)
    (llm : List AgentMessage → Except String ModelChoice)
    (exec : String → String → Except String ToolOutput)
    (argParse : String → Except String String) : AgentOutcome :=
  let maxIterations := inp.maxIterations.getD 10
  if !strTruthy (resolveApiKey inp) then
    AgentOutcome.thrown apiKeyRequiredMessage
  else
    let userInput := resolvedUserInput inp
    let st0 : AgentState :=
      { input := userInput,
        messages := initialMessages inp userInput,
        toolCalls := [],
        step := AgentStep.reason,
        iterations := 0,
        output := none,
        error := none }
    let final := agentLoop (isAnthropicDecisionMaker inp) llm exec argParse maxIterations st0
    if final.toolCalls.any summaryEntryThrows then
      AgentOutcome.thrown summaryTypeErrorMessage
    else
      AgentOutcome.returned (finishAgent maxIterations final)

/-! ## Derived predicates and concrete fixtures -/

/-- Round-trip correlation invariant: every tool-role message carries a
`tool_call_id` equal to the id of a tool-call entry of an assistant message
in the conversation. -/
def toolMessagesCorrelated (msgs : List AgentMessage) : Prop :=
  ∀ m ∈ msgs, m.role = "tool" →
    ∃ a ∈ msgs, a.role = "assistant" ∧ ∃ tc ∈ a.tool_calls, m.tool_call_id = some tc.id

/-- The conversation log of an agent outcome (empty when the operation threw
before creating the state). -/
def outcomeMessages : AgentOutcome → List AgentMessage
  | AgentOutcome.thrown _ => []
  | AgentOutcome.returned r => r.messages

/-- The `status` field of a returned contract, if any. -/
def resultStatus : AgentOutcome → Option String
  | AgentOutcome.thrown _ => none
  | AgentOutcome.returned r => some r.status

/-- The `iterations` field of a returned contract, if any. -/
def resultIterations : AgentOutcome → Option Nat
  | AgentOutcome.thrown _ => none
  | AgentOutcome.returned r => some r.iterations

/-- The `output` field of a returned contract, if any. -/
def resultOutput : AgentOutcome → Option String
  | AgentOutcome.thrown _ => none
  | AgentOutcome.returned r => some r.output

/-- Concrete delivered response used in the bridge scenarios. -/
def exResponse : WebhookResponse :=
  ⟨200, [("content-type", "application/json")], "\x7b\"ok\":true\x7d"⟩

/-- Bridge state with one resolver waiting under key `wf1/n1`. -/
def exResolverState : BridgeState := ⟨[], [], [("wf1/n1", 7)]⟩

/-- Empty bridge state. -/
def exEmptyBridge : BridgeState := ⟨[], [], []⟩

/-- Bridge state holding one delivered response whose key has no inbound
event entry. -/
def orphanResponseState : BridgeState := ⟨[], [("wf1/n1", exResponse)], []⟩

/-- Concrete unconsumed inbound event. -/
def exEvent : WebhookEvent := ⟨"\x7b\"x\":1\x7d", 1000, false, "POST"⟩

/-- Bridge state with one unconsumed inbound event under `wf1/n1`. -/
def exEventState : BridgeState := ⟨[("wf1/n1", exEvent)], [], []⟩

/-- Hub with three controllers subscribed to workflow `wf1`. -/
def exHub : HubState := ⟨[("wf1", [1, 2, 3])]⟩

/-- Enqueue oracle under which controller 2 is closed/broken. -/
def exEnqueueOk : Nat → Bool := fun c => c != 2

/-- Tool executor stub that always succeeds with an object-shaped result. -/
def stubExec : String → String → Except String ToolOutput :=
  fun _ args => Except.ok ⟨true, true, "\x7b\"echo\":\"" ++ args ++ "\"\x7d"⟩

/-- Tool executor stub whose successful output is a truthy primitive, as when
the http_request tool returns `await response.text()` for a non-JSON
response. -/
def textExec : String → String → Except String ToolOutput :=
  fun _ _ => Except.ok ⟨false, true, "\"<html>ok</html>\""⟩

/-- Argument-JSON.parse stub that always succeeds. -/
def stubParse : String → Except String String :=
  fun a => Except.ok a

/-- Node input with no API key anywhere (no config key, no legacy key, no
environment key). -/
def noKeyInput : AgentInput := {}

/-- Node input with a configured decision-maker API key. -/
def keyedInput : AgentInput :=
  { decisionMakerApiKey := some "sk-test-key", query := some "What is 2+2?" }

/-- Node input with a key and `maxIterations = 2`. -/
def maxIterTwoInput : AgentInput :=
  { decisionMakerApiKey := some "sk-test-key", maxIterations := some 2 }

/-- Node input with a key and `maxIterations = 1`. -/
def maxIterOneInput : AgentInput :=
  { decisionMakerApiKey := some "sk-test-key", maxIterations := some 1 }

/-- Decision-model stub that always throws. -/
def errLlm : List AgentMessage → Except String ModelChoice :=
  fun _ => Except.error "network timeout"

/-- Decision-model stub that always requests one tool call and never gives a
final answer. -/
def toolOnlyLlm : List AgentMessage → Except String ModelChoice :=
  fun _ =>
    Except.ok ⟨none, [WireToolCall.function "call_1" "http_request" "\x7b\"url\":\"https://x\"\x7d"]⟩

/-- Decision-model stub that returns plain text with zero tool calls. -/
def finalTextLlm : List AgentMessage → Except String ModelChoice :=
  fun _ => Except.ok ⟨some "The final answer", []⟩

/-! ## Map-model lemmas -/

theorem mGet_mDel_self {α : Type} (m : List (String × α)) (k : String) :
    mGet (mDel m k) k = none := by
  induction m with
  | nil => rfl
  | cons p rest ih =>
    obtain ⟨pk, pv⟩ := p
    by_cases h : pk = k
    · simpa [mDel, mGet, h] using ih
    · simpa [mDel, mGet, h] using ih

theorem mGet_mDel_ne {α : Type} (m : List (String × α)) (k k' : String) (h : k' ≠ k) :
    mGet (mDel m k) k' = mGet m k' := by
  induction m with
  | nil => rfl
  | cons p rest ih =>
    obtain ⟨pk, pv⟩ := p
    by_cases hk : pk = k
    · have hne : pk ≠ k' := by
        intro hc
        exact h (hc ▸ hk)
      simp [mDel, mGet, hk, hne, Ne.symm h, ih]
    · by_cases hk' : pk = k'
      · simp [mDel, mGet, hk, hk', h]
      · simp [mDel, mGet, hk, hk', ih]

theorem mGet_mSet_self {α : Type} (m : List (String × α)) (k : String) (v : α) :
    mGet (mSet m k v) k = some v := by
  simp [mSet, mGet]

theorem mGet_mSet_ne {α : Type} (m : List (String × α)) (k k' : String) (v : α) (h : k' ≠ k) :
    mGet (mSet m k v) k' = mGet m k' := by
  have hne : k ≠ k' := fun hc => h hc.symm
  simp [mSet, mGet, hne, mGet_mDel_ne m k k' h]

theorem mGet_foldl_mDel {α : Type} (ks : List String) (m : List (String × α)) (k : String) :
    mGet (ks.foldl mDel m) k = if k ∈ ks then none else mGet m k := by
  induction ks generalizing m with
  | nil => simp
  | cons k0 rest ih =>
    simp only [List.foldl_cons, ih]
    by_cases hk : k ∈ rest
    · simp [hk]
    · by_cases he : k = k0
      · subst he
        simp [hk, mGet_mDel_self]
      · simp [hk, he, mGet_mDel_ne m k0 k he]

theorem mem_expiredKeys (now : Nat) (m : List (String × WebhookEvent)) (k : String)
    (e : WebhookEvent) (h : mGet m k = some e) (he : isExpired now e = true) :
    k ∈ (m.filter (fun p => isExpired now p.2)).map (·.1) := by
  induction m with
  | nil => simp [mGet] at h
  | cons p rest ih =>
    obtain ⟨pk, pv⟩ := p
    by_cases hk : pk = k
    · subst hk
      have he' : pv = e := by simpa [mGet] using h
      subst he'
      simp only [List.mem_map, List.mem_filter]
      exact ⟨(pk, pv), ⟨List.mem_cons_self _ _, he⟩, rfl⟩
    · have h' : mGet rest k = some e := by simpa [mGet, hk] using h
      have hmem := ih h'
      simp only [List.mem_map, List.mem_filter] at hmem ⊢
      obtain ⟨a, ⟨ham, haf⟩, hag⟩ := hmem
      exact ⟨a, ⟨List.mem_cons_of_mem _ ham, haf⟩, hag⟩

/-! ## Claim C1: deliver with a waiting resolver -/

/-- C1 counterexample: with a resolver waiting under `wf1/n1`,
`setWebhookResponse` does resolve the waiter with the response, but the
response is nevertheless persisted in the response store, contradicting the
claim that it is not persisted. -/
theorem setWebhookResponse_persists_counterexample :
    (setWebhookResponse "wf1/n1" exResponse exResolverState).2 = some (7, exResponse)
    ∧ mGet (setWebhookResponse "wf1/n1" exResponse exResolverState).1.webhookResponseStore
        "wf1/n1" = some exResponse :=
  ⟨rfl, rfl⟩

/-- C1 (amended): when `deliver` is called while a resolver is waiting, the
waiter is resolved directly with that response and the resolver is removed,
but the response is also persisted in the response store, so a later `await`
for the same key consumes the stored copy again. -/
theorem setWebhookResponse_with_waiter (s : BridgeState) (path : String)
    (r : WebhookResponse) (rid waitRid : Nat)
    (h : mGet s.responseResolvers path = some rid) :
    (setWebhookResponse path r s).2 = some (rid, r)
    ∧ mGet (setWebhookResponse path r s).1.responseResolvers path = none
    ∧ mGet (setWebhookResponse path r s).1.webhookResponseStore path = some r
    ∧ (waitForWebhookResponse path waitRid (setWebhookResponse path r s).1).2
        = WaitOutcome.immediate r := by
  refine ⟨?_, ?_, ?_, ?_⟩ <;>
    simp [setWebhookResponse, waitForWebhookResponse, h, mGet_mDel_self, mGet_mSet_self]

/-- Witness for the amended C1 theorem at a concrete state. -/
theorem setWebhookResponse_with_waiter_witness :
    (setWebhookResponse "wf1/n1" exResponse exResolverState).2 = some (7, exResponse)
    ∧ mGet (setWebhookResponse "wf1/n1" exResponse exResolverState).1.responseResolvers
        "wf1/n1" = none
    ∧ mGet (setWebhookResponse "wf1/n1" exResponse exResolverState).1.webhookResponseStore
        "wf1/n1" = some exResponse
    ∧ (waitForWebhookResponse "wf1/n1" 9
        (setWebhookResponse "wf1/n1" exResponse exResolverState).1).2
        = WaitOutcome.immediate exResponse :=
  setWebhookResponse_with_waiter exResolverState "wf1/n1" exResponse 7 9 rfl

/-! ## Claim C3: deliver before await -/

/-- C3: if no resolver is waiting when `deliver` stores a response, a
subsequent `await` returns that response immediately (no resolver is
registered, no timeout is awaited), deletes it from the store as it consumes
it, and a further `await` for the same key finds nothing and must register a
resolver: the stored response is consumed exactly once. -/
theorem deliver_then_await_consumes_once (s : BridgeState) (path : String)
    (r : WebhookResponse) (rid rid2 : Nat)
    (h : mGet s.responseResolvers path = none) :
    (waitForWebhookResponse path rid (setWebhookResponse path r s).1).2
      = WaitOutcome.immediate r
    ∧ mGet (waitForWebhookResponse path rid
        (setWebhookResponse path r s).1).1.webhookResponseStore path = none
    ∧ (waitForWebhookResponse path rid2
        (waitForWebhookResponse path rid (setWebhookResponse path r s).1).1).2
      = WaitOutcome.registered rid2 := by
  refine ⟨?_, ?_, ?_⟩ <;>
    simp [setWebhookResponse, waitForWebhookResponse, h, mGet_mSet_self, mGet_mDel_self]

/-- Witness for the C3 theorem at a concrete state. -/
theorem deliver_then_await_consumes_once_witness :
    (waitForWebhookResponse "wf1/n1" 3 (setWebhookResponse "wf1/n1" exResponse exEmptyBridge).1).2
      = WaitOutcome.immediate exResponse
    ∧ mGet (waitForWebhookResponse "wf1/n1" 3
        (setWebhookResponse "wf1/n1" exResponse exEmptyBridge).1).1.webhookResponseStore
        "wf1/n1" = none
    ∧ (waitForWebhookResponse "wf1/n1" 4
        (waitForWebhookResponse "wf1/n1" 3
          (setWebhookResponse "wf1/n1" exResponse exEmptyBridge).1).1).2
      = WaitOutcome.registered 4 :=
  deliver_then_await_consumes_once exEmptyBridge "wf1/n1" exResponse 3 4 rfl

/-! ## Claim C7: the background cleanup sweep -/

/-- C7 counterexample: a delivered response whose key has no inbound-event
entry survives the sweep unchanged even at a time far beyond the retention
window, contradicting the claim that no out-of-window response remains. -/
theorem cleanupSweep_orphan_counterexample :
    cleanupSweep 10000000 orphanResponseState = orphanResponseState
    ∧ mGet (cleanupSweep 10000000 orphanResponseState).webhookResponseStore "wf1/n1"
        = some exResponse :=
  ⟨rfl, rfl⟩

/-- C7 (amended): after a sweep pass no inbound event older than the
retention window remains, and for every key whose inbound event was expired
the delivered response stored under that same key is deleted as well; a
delivered response whose key has no inbound-event entry is not touched by the
sweep. -/
theorem cleanupSweep_removes_expired (now : Nat) (s : BridgeState) :
    (∀ k e, mGet (cleanupSweep now s).webhookTestStore k = some e → isExpired now e = false)
    ∧ (∀ k e, mGet s.webhookTestStore k = some e → isExpired now e = true →
        mGet (cleanupSweep now s).webhookTestStore k = none
        ∧ mGet (cleanupSweep now s).webhookResponseStore k = none) := by
  constructor
  · intro k e h
    by_cases hm : k ∈ (s.webhookTestStore.filter (fun p => isExpired now p.2)).map (·.1)
    · rw [show (cleanupSweep now s).webhookTestStore
          = ((s.webhookTestStore.filter (fun p => isExpired now p.2)).map (·.1)).foldl mDel
              s.webhookTestStore from rfl, mGet_foldl_mDel] at h
      simp [hm] at h
    · rw [show (cleanupSweep now s).webhookTestStore
          = ((s.webhookTestStore.filter (fun p => isExpired now p.2)).map (·.1)).foldl mDel
              s.webhookTestStore from rfl, mGet_foldl_mDel] at h
      rw [if_neg hm] at h
      cases hbe : isExpired now e with
      | false => rfl
      | true => exact absurd (mem_expiredKeys now s.webhookTestStore k e h hbe) hm
  · intro k e h he
    have hm : k ∈ (s.webhookTestStore.filter (fun p => isExpired now p.2)).map (·.1) :=
      mem_expiredKeys now s.webhookTestStore k e h he
    constructor
    · rw [show (cleanupSweep now s).webhookTestStore
          = ((s.webhookTestStore.filter (fun p => isExpired now p.2)).map (·.1)).foldl mDel
              s.webhookTestStore from rfl, mGet_foldl_mDel, if_pos hm]
    · rw [show (cleanupSweep now s).webhookResponseStore
          = ((s.webhookTestStore.filter (fun p => isExpired now p.2)).map (·.1)).foldl mDel
              s.webhookResponseStore from rfl, mGet_foldl_mDel, if_pos hm]

/-- Witness for the amended C7 theorem: an expired event and the response
under its key are both removed by the sweep. -/
theorem cleanupSweep_removes_expired_witness :
    mGet (cleanupSweep 10000000
      ⟨[("wf1/n1", exEvent)], [("wf1/n1", exResponse)], []⟩).webhookTestStore "wf1/n1" = none
    ∧ mGet (cleanupSweep 10000000
        ⟨[("wf1/n1", exEvent)], [("wf1/n1", exResponse)], []⟩).webhookResponseStore
        "wf1/n1" = none :=
  (cleanupSweep_removes_expired 10000000
      ⟨[("wf1/n1", exEvent)], [("wf1/n1", exResponse)], []⟩).2
    "wf1/n1" exEvent rfl (by decide)

/-! ## Claim C8: correlation-key normalization across entry points -/

/-- C8 counterexample: for the same catch-all segments with a trailing empty
segment, the test handler and the listen poller derive `a/b` while the
production webhook handler derives `a/b/`, so the three entry points do not
normalize alike. -/
theorem productionWebhookPathKey_counterexample :
    productionWebhookPathKey ["a", "b", ""] = "a/b/"
    ∧ testWebhookPathKey ["a", "b", ""] = "a/b"
    ∧ webhookListenPathKey ["a", "b", ""] = "a/b"
    ∧ productionWebhookPathKey ["a", "b", ""] ≠ testWebhookPathKey ["a", "b", ""] := by
  refine ⟨rfl, rfl, rfl, ?_⟩
  decide

/-- C8 (amended): the test webhook handler and the webhook-listen poller
derive identical keys, each equal to the production join with trailing
slashes stripped, and stripping makes `p` and `p ++ "/"` address the same
entry; the production webhook handler alone omits the stripping. -/
theorem webhook_key_normalization (p : List String) (s : String) :
    testWebhookPathKey p = webhookListenPathKey p
    ∧ testWebhookPathKey p = stripTrailingSlashes (productionWebhookPathKey p)
    ∧ stripTrailingSlashes (s ++ "/") = stripTrailingSlashes s := by
  refine ⟨rfl, rfl, ?_⟩
  have hd : (s ++ "/").data = s.data ++ ['/'] := rfl
  simp [stripTrailingSlashes, hd, List.dropWhile]

/-! ## Claim C9: at-most-once consumption of an inbound event -/

/-- C9: for a key holding one unconsumed inbound event, the first poll check
that finds it returns `received: true` with its data and flips
`consumed = true` in the store before returning; any subsequent poll for the
same key returns `received: false` and leaves the store unchanged, until a
new `store` or a `reset` re-arms the key, after which a poll succeeds
again. -/
theorem pollOnce_at_most_once (s : BridgeState) (k : String) (e : WebhookEvent)
    (d : String) (now : Nat) (method : String)
    (h : mGet s.webhookTestStore k = some e) (hc : e.consumed = false) :
    (pollOnce k s).2 = ⟨true, some e.data⟩
    ∧ mGet (pollOnce k s).1.webhookTestStore k = some { e with consumed := true }
    ∧ (pollOnce k (pollOnce k s).1).2 = ⟨false, none⟩
    ∧ (pollOnce k (pollOnce k s).1).1 = (pollOnce k s).1
    ∧ (pollOnce k (storeInboundEvent k d now method (pollOnce k s).1)).2.received = true
    ∧ (pollOnce k (resetListener k (pollOnce k s).1)).2.received = true := by
  refine ⟨?_, ?_, ?_, ?_, ?_, ?_⟩ <;>
    simp [pollOnce, storeInboundEvent, resetListener, h, hc, mGet_mSet_self]

/-- Witness for the C9 theorem at a concrete state. -/
theorem pollOnce_at_most_once_witness :
    (pollOnce "wf1/n1" exEventState).2 = ⟨true, some exEvent.data⟩
    ∧ mGet (pollOnce "wf1/n1" exEventState).1.webhookTestStore "wf1/n1"
        = some { exEvent with consumed := true }
    ∧ (pollOnce "wf1/n1" (pollOnce "wf1/n1" exEventState).1).2 = ⟨false, none⟩
    ∧ (pollOnce "wf1/n1" (pollOnce "wf1/n1" exEventState).1).1
        = (pollOnce "wf1/n1" exEventState).1
    ∧ (pollOnce "wf1/n1" (storeInboundEvent "wf1/n1" "d2" 2000 "POST"
        (pollOnce "wf1/n1" exEventState).1)).2.received = true
    ∧ (pollOnce "wf1/n1" (resetListener "wf1/n1"
        (pollOnce "wf1/n1" exEventState).1)).2.received = true :=
  pollOnce_at_most_once exEventState "wf1/n1" exEvent "d2" 2000 "POST" rfl rfl

/-! ## Claim C10: best-effort fan-out of the broadcast hub -/

/-- C10: `publish` is a total function that never propagates a subscriber
failure to its caller: with no set (or an empty set) for the workflow it is a
silent no-op; otherwise every controller whose enqueue succeeds receives the
event, and every controller whose enqueue throws is dropped from the set
while the others still receive the event. -/
theorem broadcastToWorkflow_fanout (enqueueOk : Nat → Bool) (wid : String) (ev : String)
    (s : HubState) :
    (mGet s.connections wid = none → broadcastToWorkflow enqueueOk wid ev s = (s, []))
    ∧ (mGet s.connections wid = some [] → broadcastToWorkflow enqueueOk wid ev s = (s, []))
    ∧ (∀ conns, mGet s.connections wid = some conns → conns ≠ [] →
        mGet (broadcastToWorkflow enqueueOk wid ev s).1.connections wid
          = some (conns.filter enqueueOk)
        ∧ ∀ c ∈ conns,
            (enqueueOk c = true → (c, ev) ∈ (broadcastToWorkflow enqueueOk wid ev s).2)
            ∧ (enqueueOk c = false → c ∉ conns.filter enqueueOk)) := by
  refine ⟨?_, ?_, ?_⟩
  · intro h
    simp [broadcastToWorkflow, h]
  · intro h
    simp [broadcastToWorkflow, h]
  · intro conns h hne
    have hemp : conns.isEmpty = false := by
      cases conns with
      | nil => exact absurd rfl hne
      | cons a l => rfl
    constructor
    · simp [broadcastToWorkflow, h, hemp, mGet_mSet_self]
    · intro c hcm
      constructor
      · intro hok
        simp only [broadcastToWorkflow, h, hemp]
        simp [List.mem_map, List.mem_filter]
        exact ⟨hcm, hok⟩
      · intro hbad
        simp [List.mem_filter, hbad]

/-- Witness for the C10 theorem: three subscribers, controller 2 broken. -/
theorem broadcastToWorkflow_fanout_witness :
    mGet (broadcastToWorkflow exEnqueueOk "wf1" "ev" exHub).1.connections "wf1" = some [1, 3]
    ∧ (1, "ev") ∈ (broadcastToWorkflow exEnqueueOk "wf1" "ev" exHub).2
    ∧ (3, "ev") ∈ (broadcastToWorkflow exEnqueueOk "wf1" "ev" exHub).2
    ∧ (2 : Nat) ∉ [1, 2, 3].filter exEnqueueOk := by
  have h := (broadcastToWorkflow_fanout exEnqueueOk "wf1" "ev" exHub).2.2 [1, 2, 3] rfl
    (by decide)
  refine ⟨?_, ?_, ?_, ?_⟩
  · have := h.1
    simpa using this
  · exact (h.2 1 (by decide)).1 rfl
  · exact (h.2 3 (by decide)).1 rfl
  · exact (h.2 2 (by decide)).2 rfl

/-! ## Agent-loop lemmas -/

theorem string_data_append (s t : String) : (s ++ t).data = s.data ++ t.data := rfl

theorem fallbackOutput_ne_empty (n : Nat) (tcs : List ToolCallLog) :
    (fallbackOutput n tcs).isEmpty = false := by
  rw [← Bool.not_eq_true, String.isEmpty_iff]
  intro h
  have hd := congrArg String.data h
  simp only [fallbackOutput, string_data_append, List.append_eq_nil] at hd
  exact absurd hd.1.1.1 (by decide)

theorem jsOr_some_of_ne (s d : String) (h : s.isEmpty = false) : jsOr (some s) d = s := by
  simp [jsOr, h]

theorem agentLoopFuel_complete (isAnth : Bool)
    (llm : List AgentMessage → Except String ModelChoice)
    (exec : String → String → Except String ToolOutput)
    (argParse : String → Except String String) (maxIter : Nat)
    (fuel : Nat) (st : AgentState) (h : st.step = AgentStep.complete) :
    agentLoopFuel isAnth llm exec argParse maxIter fuel st = st := by
  cases fuel with
  | zero => rfl
  | succ f => simp [agentLoopFuel, h]

theorem runIteration_llm_error (isAnth : Bool)
    (llm : List AgentMessage → Except String ModelChoice)
    (exec : String → String → Except String ToolOutput)
    (argParse : String → Except String String) (st : AgentState) (e : String)
    (h : llm st.messages = Except.error e) :
    runIteration isAnth llm exec argParse st
      = { st with iterations := st.iterations + 1, error := some e,
                  step := AgentStep.complete } := by
  simp [runIteration, h]

theorem runIteration_final_text (isAnth : Bool)
    (llm : List AgentMessage → Except String ModelChoice)
    (exec : String → String → Except String ToolOutput)
    (argParse : String → Except String String) (st : AgentState) (txt : String)
    (h : llm st.messages = Except.ok ⟨some txt, []⟩) (ht : txt.isEmpty = false) :
    runIteration isAnth llm exec argParse st
      = { st with iterations := st.iterations + 1, output := some txt,
                  step := AgentStep.complete } := by
  cases isAnth <;> simp [runIteration, h, strTruthy, ht]

theorem agentLoop_first_complete (isAnth : Bool)
    (llm : List AgentMessage → Except String ModelChoice)
    (exec : String → String → Except String ToolOutput)
    (argParse : String → Except String String) (maxIter : Nat) (st : AgentState)
    (hm : 1 ≤ maxIter) (h0 : st.iterations = 0) (hs : st.step = AgentStep.reason)
    (hc : (runIteration isAnth llm exec argParse st).step = AgentStep.complete) :
    agentLoop isAnth llm exec argParse maxIter st
      = runIteration isAnth llm exec argParse st := by
  obtain ⟨f, rfl⟩ : ∃ f, maxIter = f + 1 := ⟨maxIter - 1, by omega⟩
  show agentLoopFuel isAnth llm exec argParse (f + 1) (f + 1) st = _
  rw [agentLoopFuel, if_pos ⟨by omega, by simp [hs]⟩]
  exact agentLoopFuel_complete isAnth llm exec argParse (f + 1) f _ hc

theorem runToolCalls_invariants (exec : String → String → Except String ToolOutput)
    (argParse : String → Except String String)
    (hparse : ∀ a, ∃ v, argParse a = Except.ok v) :
    ∀ (tcs : List WireToolCall) (st : AgentState),
      (runToolCalls exec argParse st tcs).2 = none
      ∧ (runToolCalls exec argParse st tcs).1.step = st.step
      ∧ (runToolCalls exec argParse st tcs).1.output = st.output
      ∧ (runToolCalls exec argParse st tcs).1.error = st.error
      ∧ (runToolCalls exec argParse st tcs).1.iterations = st.iterations := by
  intro tcs
  induction tcs with
  | nil => intro st; simp [runToolCalls]
  | cons tc rest ih =>
    intro st
    obtain ⟨v, hv⟩ := hparse tc.rawArgs
    cases hx : exec tc.callName v with
    | ok result =>
        have := ih { st with
          toolCalls := st.toolCalls ++ [⟨tc.callName, v, result, 0⟩],
          messages := st.messages ++ [toolResultMessage tc.callId result.json] }
        simpa [runToolCalls, hv, hx] using this
    | error em =>
        have := ih { st with
          messages := st.messages ++ [toolResultMessage tc.callId (stringifyError em)] }
        simpa [runToolCalls, hv, hx] using this

theorem runIteration_tool_only (isAnth : Bool)
    (llm : List AgentMessage → Except String ModelChoice)
    (exec : String → String → Except String ToolOutput)
    (argParse : String → Except String String) (st : AgentState)
    (hllm : ∀ msgs, ∃ tcs, llm msgs = Except.ok ⟨none, tcs⟩ ∧ tcs ≠ [])
    (hparse : ∀ a, ∃ v, argParse a = Except.ok v)
    (hstep : st.step = AgentStep.reason) (hout : st.output = none)
    (herr : st.error = none) :
    (runIteration isAnth llm exec argParse st).step = AgentStep.reason
    ∧ (runIteration isAnth llm exec argParse st).output = none
    ∧ (runIteration isAnth llm exec argParse st).error = none
    ∧ (runIteration isAnth llm exec argParse st).iterations = st.iterations + 1 := by
  obtain ⟨i0, m0, t0, s0, n0, o0, e0⟩ := st
  simp only at hstep hout herr
  subst hstep
  subst hout
  subst herr
  obtain ⟨tcs, hc, hne⟩ := hllm m0
  have hlen : 0 < tcs.length := List.length_pos.2 hne
  cases isAnth with
  | true => simp [runIteration, hc, strTruthy]
  | false =>
      have hrt := runToolCalls_invariants exec argParse hparse tcs
        { input := i0, messages := m0 ++ [assistantToolCallMessage ⟨none, tcs⟩],
          toolCalls := t0, step := AgentStep.reason, iterations := n0 + 1,
          output := none, error := none }
      obtain ⟨h2, hs3, ho3, he3, hi3⟩ := hrt
      simp [runIteration, hc, hlen, h2, hs3, ho3, he3, hi3]

theorem agentLoopFuel_saturates (isAnth : Bool)
    (llm : List AgentMessage → Except String ModelChoice)
    (exec : String → String → Except String ToolOutput)
    (argParse : String → Except String String) (maxIter : Nat)
    (hllm : ∀ msgs, ∃ tcs, llm msgs = Except.ok ⟨none, tcs⟩ ∧ tcs ≠ [])
    (hparse : ∀ a, ∃ v, argParse a = Except.ok v) :
    ∀ fuel (st : AgentState), st.step = AgentStep.reason → st.output = none →
      st.error = none → maxIter ≤ st.iterations + fuel → st.iterations ≤ maxIter →
      (agentLoopFuel isAnth llm exec argParse maxIter fuel st).iterations = maxIter
      ∧ (agentLoopFuel isAnth llm exec argParse maxIter fuel st).output = none
      ∧ (agentLoopFuel isAnth llm exec argParse maxIter fuel st).error = none := by
  intro fuel
  induction fuel with
  | zero =>
      intro st h1 h2 h3 hle hge
      exact ⟨by simp [agentLoopFuel]; omega, by simpa [agentLoopFuel] using h2,
        by simpa [agentLoopFuel] using h3⟩
  | succ f ih =>
      intro st h1 h2 h3 hle hge
      by_cases hlt : st.iterations < maxIter
      · rw [agentLoopFuel, if_pos ⟨hlt, by simp [h1]⟩]
        obtain ⟨i1, i2, i3, i4⟩ :=
          runIteration_tool_only isAnth llm exec argParse st hllm hparse h1 h2 h3
        exact ih _ i1 i2 i3 (by omega) (by omega)
      · rw [agentLoopFuel, if_neg (by simp [hlt])]
        exact ⟨by omega, h2, h3⟩

theorem finishAgent_iterations (m : Nat) (st : AgentState) :
    (finishAgent m st).iterations = st.iterations := by
  simp only [finishAgent]
  split <;> rfl

theorem finishAgent_toolCalls (m : Nat) (st : AgentState) :
    (finishAgent m st).toolCalls = st.toolCalls := by
  simp only [finishAgent]
  split <;> rfl

theorem finishAgent_messages (m : Nat) (st : AgentState) :
    (finishAgent m st).messages = st.messages := by
  simp only [finishAgent]
  split <;> rfl

/-! ## Output-shape invariant of the audit log -/

theorem runToolCalls_outputs_object (exec : String → String → Except String ToolOutput)
    (argParse : String → Except String String)
    (hexec : ∀ n a v, exec n a = Except.ok v → v.isObject = true) :
    ∀ (tcs : List WireToolCall) (st : AgentState),
      (∀ tc ∈ st.toolCalls, tc.output.isObject = true) →
      ∀ tc ∈ (runToolCalls exec argParse st tcs).1.toolCalls, tc.output.isObject = true := by
  intro tcs
  induction tcs with
  | nil => intro st h; simpa [runToolCalls] using h
  | cons tc rest ih =>
      intro st h
      cases hp : argParse tc.rawArgs with
      | error e => simpa [runToolCalls, hp] using h
      | ok args =>
          cases hx : exec tc.callName args with
          | ok result =>
              have hres : result.isObject = true := hexec _ _ _ hx
              have hnext := ih
                { st with
                  toolCalls := st.toolCalls ++ [⟨tc.callName, args, result, 0⟩],
                  messages := st.messages ++ [toolResultMessage tc.callId result.json] }
                (by
                  intro tc' htc'
                  simp only [List.mem_append, List.mem_singleton] at htc'
                  rcases htc' with h1 | h2
                  · exact h tc' h1
                  · rw [h2]
                    exact hres)
              simpa [runToolCalls, hp, hx] using hnext
          | error em =>
              have hnext := ih
                { st with
                  messages := st.messages ++ [toolResultMessage tc.callId (stringifyError em)] }
                h
              simpa [runToolCalls, hp, hx] using hnext

theorem runIteration_outputs_object (isAnth : Bool)
    (llm : List AgentMessage → Except String ModelChoice)
    (exec : String → String → Except String ToolOutput)
    (argParse : String → Except String String)
    (hexec : ∀ n a v, exec n a = Except.ok v → v.isObject = true) (st : AgentState)
    (h : ∀ tc ∈ st.toolCalls, tc.output.isObject = true) :
    ∀ tc ∈ (runIteration isAnth llm exec argParse st).toolCalls,
      tc.output.isObject = true := by
  cases hl : llm st.messages with
  | error e => simpa [runIteration, hl] using h
  | ok choice =>
      cases isAnth with
      | true =>
          by_cases hc : strTruthy choice.content = true
          · simpa [runIteration, hl, hc] using h
          · simpa [runIteration, hl, hc] using h
      | false =>
          by_cases hlen : 0 < choice.tool_calls.length
          · have hmain := runToolCalls_outputs_object exec argParse hexec choice.tool_calls
              { st with
                iterations := st.iterations + 1,
                messages := st.messages ++ [assistantToolCallMessage choice] }
              h
            cases hres : (runToolCalls exec argParse
                { st with
                  iterations := st.iterations + 1,
                  messages := st.messages ++ [assistantToolCallMessage choice] }
                choice.tool_calls).2 with
            | none => simpa [runIteration, hl, hlen, hres] using hmain
            | some e => simpa [runIteration, hl, hlen, hres] using hmain
          · by_cases hc : strTruthy choice.content = true
            · simpa [runIteration, hl, hlen, hc] using h
            · simpa [runIteration, hl, hlen, hc] using h

theorem agentLoopFuel_outputs_object (isAnth : Bool)
    (llm : List AgentMessage → Except String ModelChoice)
    (exec : String → String → Except String ToolOutput)
    (argParse : String → Except String String) (maxIter : Nat)
    (hexec : ∀ n a v, exec n a = Except.ok v → v.isObject = true) :
    ∀ fuel (st : AgentState), (∀ tc ∈ st.toolCalls, tc.output.isObject = true) →
      ∀ tc ∈ (agentLoopFuel isAnth llm exec argParse maxIter fuel st).toolCalls,
        tc.output.isObject = true := by
  intro fuel
  induction fuel with
  | zero => intro st h; simpa [agentLoopFuel] using h
  | succ f ih =>
      intro st h
      by_cases hg : st.iterations < maxIter ∧ st.step ≠ AgentStep.complete
      · rw [agentLoopFuel, if_pos hg]
        exact ih _ (runIteration_outputs_object isAnth llm exec argParse hexec st h)
      · rw [agentLoopFuel, if_neg hg]
        exact h

theorem summary_no_throw (tcs : List ToolCallLog)
    (h : ∀ tc ∈ tcs, tc.output.isObject = true) :
    tcs.any summaryEntryThrows = false := by
  induction tcs with
  | nil => rfl
  | cons tc rest ih =>
      have h1 : summaryEntryThrows tc = false := by
        simp [summaryEntryThrows, h tc (List.mem_cons_self _ _)]
      simp only [List.any_cons, h1, Bool.false_or]
      exact ih (fun tc' htc' => h tc' (List.mem_cons_of_mem _ htc'))

/-! ## Claim C2: no uncaught exception escapes the agent operation -/

/-- C2 counterexample: with no usable credential anywhere (no configured key,
no legacy key, no environment key), `executeReActAgent` throws the
VALIDATION_ERROR to its caller before the loop starts, instead of returning
the output contract. -/
theorem executeReActAgent_throws_counterexample :
    executeReActAgent noKeyInput finalTextLlm stubExec stubParse
      = AgentOutcome.thrown apiKeyRequiredMessage := rfl

/-- C2 (amended): exceptions escape `executeReActAgent` in exactly two
places: with no usable credential a VALIDATION_ERROR is thrown before the
loop starts, and after the loop the toolCallsSummary computation throws an
uncaught TypeError when a successful tool output recorded in the audit log is
a truthy primitive.  When a usable credential resolves and every successful
tool output is object-shaped, the operation always returns the structurally
complete contract, and an error thrown by the decision-model call is caught
once and recorded into the error field (status "error", the message as the
answer, loop aborted after that iteration). -/
theorem executeReActAgent_no_escape (inp : AgentInput)
    (llm : List AgentMessage → Except String ModelChoice)
    (exec : String → String → Except String ToolOutput)
    (argParse : String → Except String String) (e : String)
    (hk : strTruthy (resolveApiKey inp) = true)
    (hexec : ∀ n a v, exec n a = Except.ok v → v.isObject = true) :
    (∃ r, executeReActAgent inp llm exec argParse = AgentOutcome.returned r)
    ∧ ((∀ msgs, llm msgs = Except.error e) → e.isEmpty = false →
        1 ≤ inp.maxIterations.getD 10 →
        ∃ r, executeReActAgent inp llm exec argParse = AgentOutcome.returned r
          ∧ r.status = "error" ∧ r.answer = e ∧ r.iterations = 1) := by
  constructor
  · have hobj := agentLoopFuel_outputs_object (isAnthropicDecisionMaker inp) llm exec
      argParse (inp.maxIterations.getD 10) hexec (inp.maxIterations.getD 10)
      { input := resolvedUserInput inp,
        messages := initialMessages inp (resolvedUserInput inp),
        toolCalls := [], step := AgentStep.reason, iterations := 0,
        output := none, error := none }
      (by intro tc htc; simp at htc)
    have hnothrow : ((agentLoop (isAnthropicDecisionMaker inp) llm exec argParse
        (inp.maxIterations.getD 10)
        { input := resolvedUserInput inp,
          messages := initialMessages inp (resolvedUserInput inp),
          toolCalls := [], step := AgentStep.reason, iterations := 0,
          output := none, error := none }).toolCalls.any summaryEntryThrows) = false :=
      summary_no_throw _ hobj
    refine ⟨finishAgent (inp.maxIterations.getD 10)
      (agentLoop (isAnthropicDecisionMaker inp) llm exec argParse (inp.maxIterations.getD 10)
        { input := resolvedUserInput inp,
          messages := initialMessages inp (resolvedUserInput inp),
          toolCalls := [], step := AgentStep.reason, iterations := 0,
          output := none, error := none }), ?_⟩
    simp only [executeReActAgent, hk, Bool.not_true, Bool.false_eq_true, if_false]
    rw [hnothrow]
    simp
  · intro herr hne hm
    have hrun := runIteration_llm_error (isAnthropicDecisionMaker inp) llm exec argParse
      ⟨resolvedUserInput inp, initialMessages inp (resolvedUserInput inp), [],
        AgentStep.reason, 0, none, none⟩ e (herr _)
    have hloop := agentLoop_first_complete (isAnthropicDecisionMaker inp) llm exec argParse
      (inp.maxIterations.getD 10) _ hm rfl rfl (by rw [hrun])
    refine ⟨finishAgent (inp.maxIterations.getD 10)
      { input := resolvedUserInput inp,
        messages := initialMessages inp (resolvedUserInput inp),
        toolCalls := [], step := AgentStep.complete, iterations := 1,
        output := none, error := some e }, ?_, ?_, ?_, ?_⟩
    · simp only [executeReActAgent, hk, Bool.not_true, Bool.false_eq_true, if_false]
      rw [hloop, hrun]
      simp
    · simp [finishAgent, strTruthy, hne]
    · simp [finishAgent, strTruthy, hne, jsOr]
    · rw [finishAgent_iterations]

/-- Witness for the amended C2 theorem: a configured key with a
decision-model stub that always throws and an object-shaped tool stub. -/
theorem executeReActAgent_no_escape_witness :
    (∃ r, executeReActAgent keyedInput errLlm stubExec stubParse = AgentOutcome.returned r)
    ∧ (∃ r, executeReActAgent keyedInput errLlm stubExec stubParse = AgentOutcome.returned r
        ∧ r.status = "error" ∧ r.answer = "network timeout" ∧ r.iterations = 1) := by
  have h := executeReActAgent_no_escape keyedInput errLlm stubExec stubParse
    "network timeout" (by decide) (fun _ _ v hv => by cases hv; rfl)
  exact ⟨h.1, h.2 (fun _ => rfl) rfl (by decide)⟩

/-! ## Claim C4: termination at exactly maxIterations -/

/-- C4 counterexample: with `maxIterations = 1`, a decision model that always
requests a tool call, and a tool whose successful output is a truthy
primitive (as when `http_request` returns `response.text()`), the loop does
terminate after its one iteration, but the post-loop summary computation then
throws an uncaught TypeError to the caller instead of returning a contract
with status `max_iterations`. -/
theorem executeReActAgent_summary_throw_counterexample :
    executeReActAgent maxIterOneInput toolOnlyLlm textExec stubParse
      = AgentOutcome.thrown summaryTypeErrorMessage := rfl

/-- C4 (amended): for every input whose credential resolves and whose
`maxIterations` is at least 1, if the decision model returns one or more tool
calls on every call (never a final text answer and never throwing), every
argument payload parses, and every successful tool output is object-shaped,
then the loop runs exactly `maxIterations` iterations and the returned
contract has status `max_iterations` and the synthesized fallback answer
summarizing its recent tool calls; when some successful tool output is a
truthy primitive, the post-loop summary computation instead throws an
uncaught TypeError (see the counterexample). -/
theorem executeReActAgent_max_iterations (inp : AgentInput)
    (llm : List AgentMessage → Except String ModelChoice)
    (exec : String → String → Except String ToolOutput)
    (argParse : String → Except String String)
    (hk : strTruthy (resolveApiKey inp) = true)
    (hm : 1 ≤ inp.maxIterations.getD 10)
    (hllm : ∀ msgs, ∃ tcs, llm msgs = Except.ok ⟨none, tcs⟩ ∧ tcs ≠ [])
    (hparse : ∀ a, ∃ v, argParse a = Except.ok v)
    (hexec : ∀ n a v, exec n a = Except.ok v → v.isObject = true) :
    ∃ r, executeReActAgent inp llm exec argParse = AgentOutcome.returned r
      ∧ r.iterations = inp.maxIterations.getD 10
      ∧ r.status = "max_iterations"
      ∧ r.answer = fallbackOutput (inp.maxIterations.getD 10) r.toolCalls := by
  obtain ⟨hi, ho, he⟩ := agentLoopFuel_saturates (isAnthropicDecisionMaker inp) llm exec
    argParse (inp.maxIterations.getD 10) hllm hparse (inp.maxIterations.getD 10)
    ⟨resolvedUserInput inp, initialMessages inp (resolvedUserInput inp), [],
      AgentStep.reason, 0, none, none⟩ rfl rfl rfl (by simp) (by simp)
  have hobj := agentLoopFuel_outputs_object (isAnthropicDecisionMaker inp) llm exec
    argParse (inp.maxIterations.getD 10) hexec (inp.maxIterations.getD 10)
    { input := resolvedUserInput inp,
      messages := initialMessages inp (resolvedUserInput inp),
      toolCalls := [], step := AgentStep.reason, iterations := 0,
      output := none, error := none }
    (by intro tc htc; simp at htc)
  have hnothrow : ((agentLoop (isAnthropicDecisionMaker inp) llm exec argParse
      (inp.maxIterations.getD 10)
      { input := resolvedUserInput inp,
        messages := initialMessages inp (resolvedUserInput inp),
        toolCalls := [], step := AgentStep.reason, iterations := 0,
        output := none, error := none }).toolCalls.any summaryEntryThrows) = false :=
    summary_no_throw _ hobj
  refine ⟨finishAgent (inp.maxIterations.getD 10)
    (agentLoop (isAnthropicDecisionMaker inp) llm exec argParse (inp.maxIterations.getD 10)
      { input := resolvedUserInput inp,
        messages := initialMessages inp (resolvedUserInput inp),
        toolCalls := [], step := AgentStep.reason, iterations := 0,
        output := none, error := none }), ?_, ?_, ?_, ?_⟩
  · simp only [executeReActAgent, hk, Bool.not_true, Bool.false_eq_true, if_false]
    rw [hnothrow]
    simp
  · rw [finishAgent_iterations]
    exact hi
  · simp [finishAgent, agentLoop] at *
    simp [finishAgent, ho, he, hi, strTruthy]
  · rw [finishAgent_toolCalls]
    simp only [agentLoop] at *
    simp [finishAgent, ho, he, strTruthy,
      jsOr_some_of_ne _ _ (fallbackOutput_ne_empty _ _)]

/-- Witness for the amended C4 theorem: two iterations with a stub that
always calls the `http_request` tool and returns an object-shaped result. -/
theorem executeReActAgent_max_iterations_witness :
    ∃ r, executeReActAgent maxIterTwoInput toolOnlyLlm stubExec stubParse
        = AgentOutcome.returned r
      ∧ r.iterations = maxIterTwoInput.maxIterations.getD 10
      ∧ r.status = "max_iterations"
      ∧ r.answer = fallbackOutput (maxIterTwoInput.maxIterations.getD 10) r.toolCalls :=
  executeReActAgent_max_iterations maxIterTwoInput toolOnlyLlm stubExec stubParse
    (by decide) (by decide)
    (fun _ => ⟨[WireToolCall.function "call_1" "http_request" "\x7b\"url\":\"https://x\"\x7d"],
      rfl, by simp⟩)
    (fun a => ⟨a, rfl⟩)
    (fun _ _ v hv => by cases hv; rfl)

/-! ## Claim C5: first-call text answer -/

/-- C5 counterexample: with `maxIterations = 1` and a decision model that
returns plain text with zero tool calls on its first call, the run does stop
after exactly one iteration with the text as its output, but the returned
status is `max_iterations`, not `completed` as the claim requires for the
whole caller range 1 to 20. -/
theorem executeReActAgent_maxIterOne_counterexample :
    resultStatus (executeReActAgent maxIterOneInput finalTextLlm stubExec stubParse)
      = some "max_iterations"
    ∧ resultIterations (executeReActAgent maxIterOneInput finalTextLlm stubExec stubParse)
      = some 1
    ∧ resultOutput (executeReActAgent maxIterOneInput finalTextLlm stubExec stubParse)
      = some "The final answer" :=
  ⟨rfl, rfl, rfl⟩

/-- C5 (amended): for every configured `maxIterations` in the caller range 2
to 20, if the decision model returns nonempty plain text with zero tool calls
on its first call, the loop terminates after exactly 1 iteration with status
`completed` and output equal to that text; at `maxIterations = 1` the run
still stops after 1 iteration with that output, but the status computation
reports `max_iterations` (see the counterexample). -/
theorem executeReActAgent_completed_one_iteration (inp : AgentInput)
    (llm : List AgentMessage → Except String ModelChoice)
    (exec : String → String → Except String ToolOutput)
    (argParse : String → Except String String) (txt : String)
    (hk : strTruthy (resolveApiKey inp) = true)
    (ht : txt.isEmpty = false)
    (hllm : llm (initialMessages inp (resolvedUserInput inp)) = Except.ok ⟨some txt, []⟩)
    (hm2 : 2 ≤ inp.maxIterations.getD 10)
    (hm20 : inp.maxIterations.getD 10 ≤ 20) :
    ∃ r, executeReActAgent inp llm exec argParse = AgentOutcome.returned r
      ∧ r.iterations = 1 ∧ r.status = "completed" ∧ r.output = txt ∧ r.answer = txt := by
  have hrun := runIteration_final_text (isAnthropicDecisionMaker inp) llm exec argParse
    ⟨resolvedUserInput inp, initialMessages inp (resolvedUserInput inp), [],
      AgentStep.reason, 0, none, none⟩ txt hllm ht
  have hloop := agentLoop_first_complete (isAnthropicDecisionMaker inp) llm exec argParse
    (inp.maxIterations.getD 10) _ (by omega) rfl rfl (by rw [hrun])
  have hmle : ¬ (inp.maxIterations.getD 10 ≤ 1) := by omega
  refine ⟨finishAgent (inp.maxIterations.getD 10)
    { input := resolvedUserInput inp,
      messages := initialMessages inp (resolvedUserInput inp),
      toolCalls := [], step := AgentStep.complete, iterations := 1,
      output := some txt, error := none }, ?_, ?_, ?_, ?_, ?_⟩
  · simp only [executeReActAgent, hk, Bool.not_true, Bool.false_eq_true, if_false]
    rw [hloop, hrun]
    simp
  · rw [finishAgent_iterations]
  · simp [finishAgent, strTruthy, ht, hmle]
  · simp [finishAgent, strTruthy, ht, jsOr]
  · simp [finishAgent, strTruthy, ht, jsOr]

/-- Witness for the amended C5 theorem: `maxIterations = 2` and a stub
returning plain text on the first call. -/
theorem executeReActAgent_completed_one_iteration_witness :
    ∃ r, executeReActAgent maxIterTwoInput finalTextLlm stubExec stubParse
        = AgentOutcome.returned r
      ∧ r.iterations = 1 ∧ r.status = "completed" ∧ r.output = "The final answer"
      ∧ r.answer = "The final answer" :=
  executeReActAgent_completed_one_iteration maxIterTwoInput finalTextLlm stubExec stubParse
    "The final answer" (by decide) rfl rfl (by decide) (by decide)

/-! ## Claim C6: tool-call correlation lemmas -/

theorem toolMessagesCorrelated_append (msgs extra : List AgentMessage)
    (h : toolMessagesCorrelated msgs)
    (hextra : ∀ m ∈ extra, m.role = "tool" →
      ∃ a ∈ msgs, a.role = "assistant" ∧ ∃ tc ∈ a.tool_calls, m.tool_call_id = some tc.id) :
    toolMessagesCorrelated (msgs ++ extra) := by
  intro m hm hrole
  rcases List.mem_append.1 hm with hm1 | hm2
  · obtain ⟨a, ha, har, tc, htc, hid⟩ := h m hm1 hrole
    exact ⟨a, List.mem_append.2 (Or.inl ha), har, tc, htc, hid⟩
  · obtain ⟨a, ha, har, tc, htc, hid⟩ := hextra m hm2 hrole
    exact ⟨a, List.mem_append.2 (Or.inl ha), har, tc, htc, hid⟩

theorem normalizeToolCall_id (tc : WireToolCall) :
    (normalizeToolCall tc).id = tc.callId := by
  cases tc <;> rfl

theorem runToolCalls_correlated (exec : String → String → Except String ToolOutput)
    (argParse : String → Except String String) :
    ∀ (tcs : List WireToolCall) (st : AgentState) (am : AgentMessage),
      toolMessagesCorrelated st.messages →
      am ∈ st.messages → am.role = "assistant" →
      (∀ tc ∈ tcs, ∃ rec ∈ am.tool_calls, rec.id = tc.callId) →
      toolMessagesCorrelated (runToolCalls exec argParse st tcs).1.messages := by
  intro tcs
  induction tcs with
  | nil =>
      intro st am h _ _ _
      simpa [runToolCalls] using h
  | cons tc rest ih =>
      intro st am h ham hrole htc
      obtain ⟨rec, hrec, hrecid⟩ := htc tc (List.mem_cons_self _ _)
      cases hp : argParse tc.rawArgs with
      | error e => simpa [runToolCalls, hp] using h
      | ok args =>
          cases hx : exec tc.callName args with
          | ok result =>
              have hnew : toolMessagesCorrelated
                  (st.messages ++ [toolResultMessage tc.callId result.json]) := by
                refine toolMessagesCorrelated_append _ _ h ?_
                intro m hm hmrole
                have hme : m = toolResultMessage tc.callId result.json := by simpa using hm
                subst hme
                exact ⟨am, ham, hrole, rec, hrec, by simp [toolResultMessage, hrecid]⟩
              have hrest := ih
                { st with
                  toolCalls := st.toolCalls ++ [⟨tc.callName, args, result, 0⟩],
                  messages := st.messages ++ [toolResultMessage tc.callId result.json] }
                am (by simpa using hnew) (by simp [ham]) hrole
                (fun tc' htc' => htc tc' (List.mem_cons_of_mem _ htc'))
              simpa [runToolCalls, hp, hx] using hrest
          | error em =>
              have hnew : toolMessagesCorrelated
                  (st.messages ++ [toolResultMessage tc.callId (stringifyError em)]) := by
                refine toolMessagesCorrelated_append _ _ h ?_
                intro m hm hmrole
                have hme : m = toolResultMessage tc.callId (stringifyError em) := by
                  simpa using hm
                subst hme
                exact ⟨am, ham, hrole, rec, hrec, by simp [toolResultMessage, hrecid]⟩
              have hrest := ih
                { st with
                  messages := st.messages ++ [toolResultMessage tc.callId (stringifyError em)] }
                am (by simpa using hnew) (by simp [ham]) hrole
                (fun tc' htc' => htc tc' (List.mem_cons_of_mem _ htc'))
              simpa [runToolCalls, hp, hx] using hrest

theorem runIteration_correlated (isAnth : Bool)
    (llm : List AgentMessage → Except String ModelChoice)
    (exec : String → String → Except String ToolOutput)
    (argParse : String → Except String String) (st : AgentState)
    (h : toolMessagesCorrelated st.messages) :
    toolMessagesCorrelated (runIteration isAnth llm exec argParse st).messages := by
  cases hl : llm st.messages with
  | error e => simpa [runIteration, hl] using h
  | ok choice =>
      cases isAnth with
      | true =>
          by_cases hc : strTruthy choice.content = true
          · simpa [runIteration, hl, hc] using h
          · simpa [runIteration, hl, hc] using h
      | false =>
          by_cases hlen : 0 < choice.tool_calls.length
          · have hassist : toolMessagesCorrelated
                (st.messages ++ [assistantToolCallMessage choice]) := by
              refine toolMessagesCorrelated_append _ _ h ?_
              intro m hm hmrole
              have hme : m = assistantToolCallMessage choice := by simpa using hm
              rw [hme] at hmrole
              simp [assistantToolCallMessage] at hmrole
            have hmain := runToolCalls_correlated exec argParse choice.tool_calls
              { st with
                iterations := st.iterations + 1,
                messages := st.messages ++ [assistantToolCallMessage choice] }
              (assistantToolCallMessage choice)
              (by simpa using hassist) (by simp) rfl
              (fun tc htc =>
                ⟨normalizeToolCall tc,
                  by
                    simp only [assistantToolCallMessage]
                    exact List.mem_map_of_mem _ htc,
                  normalizeToolCall_id tc⟩)
            cases hres : (runToolCalls exec argParse
                { st with
                  iterations := st.iterations + 1,
                  messages := st.messages ++ [assistantToolCallMessage choice] }
                choice.tool_calls).2 with
            | none => simpa [runIteration, hl, hlen, hres] using hmain
            | some e => simpa [runIteration, hl, hlen, hres] using hmain
          · by_cases hc : strTruthy choice.content = true
            · simpa [runIteration, hl, hlen, hc] using h
            · simpa [runIteration, hl, hlen, hc] using h

theorem agentLoopFuel_correlated (isAnth : Bool)
    (llm : List AgentMessage → Except String ModelChoice)
    (exec : String → String → Except String ToolOutput)
    (argParse : String → Except String String) (maxIter : Nat) :
    ∀ fuel (st : AgentState), toolMessagesCorrelated st.messages →
      toolMessagesCorrelated
        (agentLoopFuel isAnth llm exec argParse maxIter fuel st).messages := by
  intro fuel
  induction fuel with
  | zero => intro st h; simpa [agentLoopFuel] using h
  | succ f ih =>
      intro st h
      by_cases hg : st.iterations < maxIter ∧ st.step ≠ AgentStep.complete
      · rw [agentLoopFuel, if_pos hg]
        exact ih _ (runIteration_correlated isAnth llm exec argParse st h)
      · rw [agentLoopFuel, if_neg hg]
        exact h

/-- C6: for every input and every behavior of the decision model, the tool
executors and the argument parser, every tool-role message in the returned
conversation carries a `tool_call_id` equal to the id of a tool-call entry of
an assistant message of the same conversation, whether the tool execution
succeeded or failed. -/
theorem executeReActAgent_tool_correlation (inp : AgentInput)
    (llm : List AgentMessage → Except String ModelChoice)
    (exec : String → String → Except String ToolOutput)
    (argParse : String → Except String String) :
    toolMessagesCorrelated (outcomeMessages (executeReActAgent inp llm exec argParse)) := by
  cases hk : strTruthy (resolveApiKey inp) with
  | false =>
      intro m hm hrole
      simp [executeReActAgent, hk, outcomeMessages] at hm
  | true =>
      have hinit : toolMessagesCorrelated (initialMessages inp (resolvedUserInput inp)) := by
        intro m hm hrole
        simp only [initialMessages, List.mem_cons, List.not_mem_nil, or_false] at hm
        rcases hm with h1 | h2
        · rw [h1] at hrole
          simp at hrole
        · rw [h2] at hrole
          simp at hrole
      have hcorr := agentLoopFuel_correlated (isAnthropicDecisionMaker inp) llm exec argParse
        (inp.maxIterations.getD 10) (inp.maxIterations.getD 10)
        { input := resolvedUserInput inp,
          messages := initialMessages inp (resolvedUserInput inp),
          toolCalls := [], step := AgentStep.reason, iterations := 0,
          output := none, error := none }
        (by simpa using hinit)
      simp only [executeReActAgent, hk, Bool.not_true, Bool.false_eq_true, if_false,
        agentLoop]
      cases hthrow : ((agentLoopFuel (isAnthropicDecisionMaker inp) llm exec argParse
          (inp.maxIterations.getD 10) (inp.maxIterations.getD 10)
          { input := resolvedUserInput inp,
            messages := initialMessages inp (resolvedUserInput inp),
            toolCalls := [], step := AgentStep.reason, iterations := 0,
            output := none, error := none }).toolCalls.any summaryEntryThrows) with
      | true =>
          intro m hm hrole
          simp [hthrow, outcomeMessages] at hm
      | false =>
          simp only [hthrow, Bool.false_eq_true, if_false, outcomeMessages]
          rw [finishAgent_messages]
          exact hcorr
